import Mathlib

/-!
Shallow embedding of `src/code/run_capsule.py` from
AllenNeuralDynamics/aind-capsule-ephys-curation: a curation orchestrator
that discovers postprocessed ecephys recordings, evaluates a quality-metric
filter per unit, and persists a boolean QC mask (plus a provenance record
in pipeline mode).

Strings are modelled as `List Char`; Python truthiness, `or`, substring
containment (`in`), `str.find`, `str.endswith` and the
`"_".join(name.split("_")[1:])` idiom are embedded explicitly.
Metric values (floats compared with `<` / `>` in the pandas query) are
modelled as rationals.
-/

namespace RunCapsule

/-- Python `needle.isPrefixOf hay`-style check: `hay.startswith(needle)`.
(`s1.startswith(s2)` ⇔ `s2` is an initial segment of `s1`.) -/
def startsWithStr : List Char → List Char → Bool
  | _, [] => true
  | [], _ :: _ => false
  | a :: as, b :: bs => a = b && startsWithStr as bs

/-- Python `hay.endswith(needle)`. -/
def endsWithStr (hay needle : List Char) : Bool :=
  startsWithStr hay.reverse needle.reverse

/-- Python `hay.find(needle)`: index of the first occurrence of `needle`
in `hay`, `none` when absent (`-1` in Python). -/
def strFind (needle : List Char) : List Char → Option Nat
  | [] => if startsWithStr [] needle then some 0 else none
  | c :: t =>
    if startsWithStr (c :: t) needle then some 0
    else (strFind needle t).map (· + 1)

/-- Python `needle in hay` (substring containment). -/
def containsStr (hay needle : List Char) : Bool :=
  (strFind needle hay).isSome

/-- The string `".zarr"` as a character list. -/
def zarrStr : List Char := '.' :: 'z' :: 'a' :: 'r' :: 'r' :: []

/-- Lines 162-163: `if recording_name.endswith(".zarr"): recording_name =
recording_name[:recording_name.find(".zarr")]`.  Note the slice endpoint is
the FIRST occurrence of `".zarr"`, not the start of the trailing suffix. -/
def strip_zarr (name : List Char) : List Char :=
  if endsWithStr name zarrStr then
    match strFind zarrStr name with
    | some i => name.take i
    | none => name
  else name

/-- Line 159: `("_").join(postprocessed_folder.name.split("_")[1:])`.
Dropping the first `"_"`-separated token and re-joining is exactly removing
everything up to and including the first underscore (and the empty string
when no underscore occurs, since `[1:]` of a one-element list is empty). -/
def drop_first_token : List Char → List Char
  | [] => []
  | c :: t => if c = '_' then t else drop_first_token t

/-! ### Command-line and environment resolution (lines 38-78) -/

/-- Python truthiness of a value that is either `None` or a string:
`None` and `""` are falsy, every other string is truthy. -/
def pyTruthy : Option (List Char) → Bool
  | none => false
  | some s => !s.isEmpty

/-- Python `a or b` on `None`-or-string values: `a` when truthy, else `b`. -/
def pyOr (a b : Option (List Char)) : Option (List Char) :=
  if pyTruthy a then a else b

/-- How a job-count string is converted on line 62:
`int(N_JOBS) if not N_JOBS.startswith("0.") else float(N_JOBS)`.
`intKind` means the string goes through Python `int(...)` (an integer
count; fatal `ValueError` on a fractional string), `floatKind` through
`float(...)` (a fraction of the available cores). -/
inductive NumKind where
  | intKind
  | floatKind
deriving DecidableEq

/-- The string `"0."` as a character list. -/
def zeroDotStr : List Char := '0' :: '.' :: []

/-- Line 62: the conversion applied to the command-line job-count string. -/
def n_jobs_kind (s : List Char) : NumKind :=
  if !(startsWithStr s zeroDotStr) then .intKind else .floatKind

/-- Lines 61-62 and 67-68: the effective job-count string together with the
conversion applied to it.  `static_n_jobs` is the positional argument
(argparse default `"-1"`), `n_jobs` the `--n-jobs` named argument (default
`"-1"`), `co_cpus` the `CO_CPUS` environment variable (`none` when unset).
`N_JOBS = args.static_n_jobs or args.n_jobs`, converted by `n_jobs_kind`;
then `N_JOBS = int(N_JOBS_CO) if N_JOBS_CO is not None else N_JOBS` — the
environment value is always converted with `int(...)`. -/
def resolve_n_jobs (static_n_jobs n_jobs : List Char) (co_cpus : Option (List Char)) :
    NumKind × List Char :=
  let njobs := (pyOr (some static_n_jobs) (some n_jobs)).getD static_n_jobs
  match co_cpus with
  | some c => (.intKind, c)
  | none => (n_jobs_kind njobs, njobs)

/-- The parameters source the script ends up reading (lines 70-78). -/
inductive ParamsSource where
  | fromFile (path : List Char)
  | fromStr (s : List Char)
  | defaultFile
deriving DecidableEq

/-- Lines 63-64 and 70-78: `PARAMS_FILE = args.static_params_file or
args.params_file` (both default `None`), then
`if PARAMS_FILE is not None: open(PARAMS_FILE)` /
`elif PARAMS_STR is not None: json.loads(PARAMS_STR)` /
`else: open("params.json")`. -/
def resolve_params (static_params_file params_file params_str : Option (List Char)) :
    ParamsSource :=
  match pyOr static_params_file params_file with
  | some p => .fromFile p
  | none =>
    match params_str with
    | some s => .fromStr s
    | none => .defaultFile

/-! ### Input-directory entries and mode resolution (lines 88-142) -/

/-- A directory entry of the `../data/` folder: its name and whether it is
a directory (`p.is_dir()`). -/
structure Entry where
  name : List Char
  isDir : Bool
deriving DecidableEq

/-- The string `"ecephys"` as a character list. -/
def ecephysStr : List Char := 'e' :: 'c' :: 'e' :: 'p' :: 'h' :: 'y' :: 's' :: []

/-- The string `"behavior"` as a character list. -/
def behaviorStr : List Char :=
  'b' :: 'e' :: 'h' :: 'a' :: 'v' :: 'i' :: 'o' :: 'r' :: []

/-- The string `"sorted"` as a character list. -/
def sortedStr : List Char := 's' :: 'o' :: 'r' :: 't' :: 'e' :: 'd' :: []

/-- Line 91: `p.is_dir() and "ecephys" in p.name or "behavior" in p.name
and "sorted" in p.name` — Python `and` binds tighter than `or`, so the
`is_dir` conjunct applies only to the `"ecephys"` disjunct. -/
def sortedAssetFilter (e : Entry) : Bool :=
  (e.isDir && containsStr e.name ecephysStr) ||
    (containsStr e.name behaviorStr && containsStr e.name sortedStr)

/-- Modelled from the spec: the spec's reading of the same filter, in which
being a subdirectory is required in both disjuncts ("a subdirectory whose
name contains \"ecephys\", or contains both \"behavior\" and \"sorted\"").
Kept for comparison with `sortedAssetFilter`, the code's filter. -/
def sortedAssetFilterSpec (e : Entry) : Bool :=
  e.isDir &&
    (containsStr e.name ecephysStr ||
      (containsStr e.name behaviorStr && containsStr e.name sortedStr))

/-- Lines 88-92: the qualifying attached sorted-asset entries. -/
def ecephys_sorted_folders (entries : List Entry) : List Entry :=
  entries.filter sortedAssetFilter

/-- The three mutually exclusive operating modes (lines 125-142). -/
inductive Mode where
  | singleAsset
  | testMode
  | pipeline
deriving DecidableEq

/-- Line 128's assertion message `"Attach one sorted asset at a time"`,
as a character list. -/
def assertionMsg : List Char :=
  'A' :: 't' :: 't' :: 'a' :: 'c' :: 'h' :: ' ' :: 'o' :: 'n' :: 'e' :: ' ' ::
    's' :: 'o' :: 'r' :: 't' :: 'e' :: 'd' :: ' ' :: 'a' :: 's' :: 's' :: 'e' ::
    't' :: ' ' :: 'a' :: 't' :: ' ' :: 'a' :: ' ' :: 't' :: 'i' :: 'm' :: 'e' :: []

/-- Lines 125-142: mode resolution.  When at least one sorted asset is
attached, `assert len(ecephys_sorted_folders) == 1` aborts the run unless
exactly one qualifies (capsule / single-asset mode); otherwise the test
fixture folder selects test mode, and the default is pipeline mode. -/
def resolve_mode (entries : List Entry) (test_dir_exists : Bool) :
    Except (List Char) Mode :=
  if (ecephys_sorted_folders entries).length > 0 then
    if (ecephys_sorted_folders entries).length = 1 then .ok .singleAsset
    else .error assertionMsg
  else if test_dir_exists then .ok .testMode
  else .ok .pipeline

/-- The `pipeline_mode` flag: line 125 initializes it to `True` and only the
single-asset branch (line 131) resets it to `False`; the test branch
(lines 132-139) leaves it `True`. -/
def pipeline_mode : Mode → Bool
  | .singleAsset => false
  | .testMode => true
  | .pipeline => true

/-! ### Recording discovery (lines 147-163) -/

/-- The string `"postprocessed_"` as a character list. -/
def postprocessedUnderscoreStr : List Char :=
  'p' :: 'o' :: 's' :: 't' :: 'p' :: 'r' :: 'o' :: 'c' :: 'e' :: 's' :: 's' ::
    'e' :: 'd' :: '_' :: []

/-- The string `"postprocessed-sorting"` as a character list. -/
def postprocessedSortingStr : List Char :=
  'p' :: 'o' :: 's' :: 't' :: 'p' :: 'r' :: 'o' :: 'c' :: 'e' :: 's' :: 's' ::
    'e' :: 'd' :: '-' :: 's' :: 'o' :: 'r' :: 't' :: 'i' :: 'n' :: 'g' :: []

/-- Lines 147-154: entries of the postprocessed base folder treated as
recordings.  With `pipeline_mode` set, any entry whose name contains
`"postprocessed_"` qualifies (no `is_dir` check); otherwise any directory
whose name does not contain `"postprocessed-sorting"`. -/
def postprocessed_folders (pm : Bool) (entries : List Entry) : List Entry :=
  if pm then
    entries.filter fun p => containsStr p.name postprocessedUnderscoreStr
  else
    entries.filter fun p => !containsStr p.name postprocessedSortingStr && p.isDir

/-- Lines 158-163: the recording name derived from a discovered folder
name: in pipeline mode drop the token before the first underscore, then in
every mode apply the `".zarr"` truncation. -/
def recording_name (pm : Bool) (folder_name : List Char) : List Char :=
  strip_zarr (if pm then drop_first_token folder_name else folder_name)

/-! ### Per-recording curation (lines 119-141 and 166-210) -/

/-- One row of the quality-metrics table (the three columns the curation
query mentions), with float metric values modelled as rationals. -/
structure QMRow where
  isi_violations_ratio : ℚ
  presence_ratio : ℚ
  amplitude_cutoff : ℚ

/-- The `curation` section of the parameters document (lines 119-121). -/
structure CurationParams where
  isi_violations_ratio_threshold : ℚ
  presence_ratio_threshold : ℚ
  amplitude_cutoff_threshold : ℚ

/-- Line 123 / 141: the default curation query
`isi_violations_ratio < thr and presence_ratio > thr and
amplitude_cutoff < thr`, evaluated on one metrics row. -/
def curation_query (p : CurationParams) (r : QMRow) : Bool :=
  decide (r.isi_violations_ratio < p.isi_violations_ratio_threshold) &&
    decide (r.presence_ratio > p.presence_ratio_threshold) &&
    decide (r.amplitude_cutoff < p.amplitude_cutoff_threshold)

/-- Lines 136-138: the test-mode curation query, with the presence-ratio
clause dropped. -/
def curation_query_test (p : CurationParams) (r : QMRow) : Bool :=
  decide (r.isi_violations_ratio < p.isi_violations_ratio_threshold) &&
    decide (r.amplitude_cutoff < p.amplitude_cutoff_threshold)

/-- The query active in a given mode: test mode replaces the default query
(line 136); the single-asset and pipeline branches keep the default one
(lines 123, 141). -/
def curation_query_for_mode (m : Mode) (p : CurationParams) : QMRow → Bool :=
  if m = .testMode then curation_query_test p else curation_query p

/-- The loaded sorting analyzer, reduced to what the script reads from it:
the unit ids (`analyzer.sorting.unit_ids`, which the external library also
reports as `analyzer.unit_ids`) and the quality-metrics table produced by
`analyzer.get_extension("quality_metrics").get_data()`, a data frame
indexed by those unit ids. -/
structure Analyzer where
  unit_ids : List Nat
  metrics : Nat → QMRow

/-- The quality-metrics table as a list of (unit id, row) pairs, one row
per unit id in the analyzer's order. -/
def qm_table (a : Analyzer) : List (Nat × QMRow) :=
  a.unit_ids.map fun u => (u, a.metrics u)

/-- Lines 178-179: `qm_curated = qm.query(curation_query);
curated_unit_ids = qm_curated.index.values` — the ids of the rows
satisfying the query. -/
def curated_unit_ids (a : Analyzer) (q : QMRow → Bool) : List Nat :=
  ((qm_table a).filter fun row => q row.2).map fun row => row.1

/-- Line 182: `default_qc = np.array([True if unit in curated_unit_ids
else False for unit in analyzer.sorting.unit_ids])`. -/
def default_qc (a : Analyzer) (q : QMRow → Bool) : List Bool :=
  a.unit_ids.map fun u => decide (u ∈ curated_unit_ids a q)

/-- Line 195: `curation_outputs = dict(total_units=n_units,
passing_qc=n_passing, failing_qc=n_units - n_passing)`. -/
structure CurationOutputs where
  total_units : Nat
  passing_qc : Nat
  failing_qc : Nat
deriving DecidableEq

/-- The per-recording artifacts the loop persists: the recording name, the
saved `qc_{recording_name}.npy` boolean mask, and the
`data_process_curation_{recording_name}.json` provenance document (reduced
to its outputs; `none` when no document is written). -/
structure RecordingOutcome where
  rec_name : List Char
  qc_mask : List Bool
  provenance : Option CurationOutputs

/-- Lines 166-210, body of the per-recording loop.  `load` is the result
of `si.load_sorting_analyzer_or_waveforms` (`none` when it raises): on
failure the mask saved is the empty array `np.array([], dtype=bool)` and
the loop continues; on success the mask is `default_qc`, and a
`DataProcess` document with `curation_outputs` is written iff
`pipeline_mode` is set. -/
def process_recording (pm : Bool) (q : QMRow → Bool) (name : List Char)
    (load : Option Analyzer) : RecordingOutcome :=
  match load with
  | none => { rec_name := name, qc_mask := [], provenance := none }
  | some a =>
    let mask := default_qc a q
    let n_passing := mask.count true
    let n_units := a.unit_ids.length
    { rec_name := name
      qc_mask := mask
      provenance :=
        if pm then
          some { total_units := n_units, passing_qc := n_passing,
                 failing_qc := n_units - n_passing }
        else none }

/-- Lines 155-210: the batch loop over the discovered recordings, each
given by its derived name and the outcome of its analyzer-load step. -/
def run_batch (pm : Bool) (q : QMRow → Bool)
    (recs : List (List Char × Option Analyzer)) : List RecordingOutcome :=
  recs.map fun r => process_recording pm q r.1 r.2

/-- Sample file name "behavior_sorted.txt" (a file, not a directory). -/
def behaviorSortedFileName : List Char :=
  'b' :: 'e' :: 'h' :: 'a' :: 'v' :: 'i' :: 'o' :: 'r' :: '_' :: 's' :: 'o' ::
    'r' :: 't' :: 'e' :: 'd' :: '.' :: 't' :: 'x' :: 't' :: []

/-- Sample directory name "ecephys_sorted". -/
def ecephysSortedName : List Char :=
  'e' :: 'c' :: 'e' :: 'p' :: 'h' :: 'y' :: 's' :: '_' :: 's' :: 'o' :: 'r' ::
    't' :: 'e' :: 'd' :: []

/-- Sample job-count string "-1" (the argparse default). -/
def dashOneStr : List Char := '-' :: '1' :: []

/-- Sample job-count string "4". -/
def fourStr : List Char := '4' :: []

/-- Sample job-count string "0.5". -/
def zeroDotFiveStr : List Char := '0' :: '.' :: '5' :: []

/-- Sample file name "postprocessed_rec1". -/
def ppFileRecName : List Char :=
  'p' :: 'o' :: 's' :: 't' :: 'p' :: 'r' :: 'o' :: 'c' :: 'e' :: 's' :: 's' ::
    'e' :: 'd' :: '_' :: 'r' :: 'e' :: 'c' :: '1' :: []

/-- Sample derived recording name "rec.zarr.zarr". -/
def recZarrZarrName : List Char :=
  'r' :: 'e' :: 'c' :: '.' :: 'z' :: 'a' :: 'r' :: 'r' :: '.' :: 'z' :: 'a' ::
    'r' :: 'r' :: []

/-- Sample recording name "rec.zarr". -/
def recDotZarrName : List Char :=
  'r' :: 'e' :: 'c' :: '.' :: 'z' :: 'a' :: 'r' :: 'r' :: []

/-- Sample token "postprocessed" (no underscore). -/
def ppTokenStr : List Char :=
  'p' :: 'o' :: 's' :: 't' :: 'p' :: 'r' :: 'o' :: 'c' :: 'e' :: 's' :: 's' ::
    'e' :: 'd' :: []

/-! ### Helper lemmas -/

theorem startsWithStr_iff (a b : List Char) :
    startsWithStr a b = true ↔ ∃ t, a = b ++ t := by
  induction b generalizing a with
  | nil => simp [startsWithStr]
  | cons c bs ih =>
    cases a with
    | nil => simp [startsWithStr]
    | cons x xs =>
      simp only [startsWithStr, Bool.and_eq_true, decide_eq_true_eq, ih,
        List.cons_append, List.cons.injEq]
      constructor
      · rintro ⟨rfl, t, rfl⟩
        exact ⟨t, rfl, rfl⟩
      · rintro ⟨t, rfl, rfl⟩
        exact ⟨rfl, t, rfl⟩

theorem endsWithStr_iff (hay needle : List Char) :
    endsWithStr hay needle = true ↔ ∃ t, hay = t ++ needle := by
  rw [endsWithStr, startsWithStr_iff]
  constructor
  · rintro ⟨t, h⟩
    refine ⟨t.reverse, ?_⟩
    have := congrArg List.reverse h
    simpa using this
  · rintro ⟨t, rfl⟩
    exact ⟨t.reverse, by simp⟩

theorem strFind_first_occurrence (needle hay : List Char) (i : Nat)
    (h : strFind needle hay = some i) :
    startsWithStr (hay.drop i) needle = true ∧
      ∀ j, j < i → startsWithStr (hay.drop j) needle = false := by
  induction hay generalizing i with
  | nil =>
    rw [strFind] at h
    split at h
    · rename_i hs
      cases h
      exact ⟨hs, by omega⟩
    · cases h
  | cons c t ih =>
    rw [strFind] at h
    split at h
    · rename_i hs
      cases h
      exact ⟨hs, by omega⟩
    · rename_i hs
      rcases Option.map_eq_some'.mp h with ⟨k, hk, rfl⟩
      obtain ⟨h1, h2⟩ := ih k hk
      refine ⟨h1, ?_⟩
      intro j hj
      cases j with
      | zero => simpa using Bool.eq_false_iff.mpr hs
      | succ j =>
        exact h2 j (by omega)

theorem strFind_isSome_of_occurrence (needle hay : List Char) (k : Nat)
    (h : startsWithStr (hay.drop k) needle = true) :
    (strFind needle hay).isSome = true := by
  induction hay generalizing k with
  | nil =>
    simp only [List.drop_nil] at h
    simp [strFind, h]
  | cons c t ih =>
    rw [strFind]
    split
    · rfl
    · rename_i hs
      cases k with
      | zero => simp_all
      | succ k =>
        simp only [List.drop_succ_cons] at h
        simpa using ih k h

theorem drop_first_token_of_split (pre rest : List Char) (h : '_' ∉ pre) :
    drop_first_token (pre ++ '_' :: rest) = rest := by
  induction pre with
  | nil => simp [drop_first_token]
  | cons c t ih =>
    have hc : ¬(c = '_') := fun hc => h (hc ▸ List.mem_cons_self c t)
    have ht : '_' ∉ t := fun hm => h (List.mem_cons_of_mem c hm)
    simp [drop_first_token, hc, ih ht]

theorem mem_curated_unit_ids (a : Analyzer) (q : QMRow → Bool) (u : Nat) :
    u ∈ curated_unit_ids a q ↔ u ∈ a.unit_ids ∧ q (a.metrics u) = true := by
  simp only [curated_unit_ids, qm_table, List.mem_map, List.mem_filter,
    List.mem_map]
  constructor
  · rintro ⟨x, ⟨⟨w, hw, rfl⟩, hq⟩, h1⟩
    simp only at h1 hq
    subst h1
    exact ⟨hw, hq⟩
  · rintro ⟨hu, hq⟩
    exact ⟨(u, a.metrics u), ⟨⟨u, hu, rfl⟩, hq⟩, rfl⟩

theorem default_qc_length (a : Analyzer) (q : QMRow → Bool) :
    (default_qc a q).length = a.unit_ids.length := by
  simp [default_qc]

theorem default_qc_get (a : Analyzer) (q : QMRow → Bool) (i : Nat)
    (h1 : i < a.unit_ids.length) (h2 : i < (default_qc a q).length) :
    (default_qc a q).get ⟨i, h2⟩ = q (a.metrics (a.unit_ids.get ⟨i, h1⟩)) := by
  simp only [default_qc, List.get_eq_getElem, List.getElem_map]
  have hmem : a.unit_ids.get ⟨i, h1⟩ ∈ a.unit_ids := List.get_mem _ _ _
  have hiff : a.unit_ids.get ⟨i, h1⟩ ∈ curated_unit_ids a q ↔
      q (a.metrics (a.unit_ids.get ⟨i, h1⟩)) = true :=
    (mem_curated_unit_ids a q _).trans (and_iff_right hmem)
  cases hq : q (a.metrics (a.unit_ids.get ⟨i, h1⟩)) with
  | false =>
    exact decide_eq_false fun hmm => by
      have := hiff.mp hmm
      rw [hq] at this
      cases this
  | true => exact decide_eq_true (hiff.mpr hq)

/-! ### Concrete sample inputs used by witnesses -/

/-- Sample thresholds: isi < 1, presence > 1, amplitude cutoff < 1. -/
def exParams : CurationParams :=
  { isi_violations_ratio_threshold := 1
    presence_ratio_threshold := 1
    amplitude_cutoff_threshold := 1 }

/-- Sample metrics row passing all three clauses of `exParams`. -/
def exRow : QMRow :=
  { isi_violations_ratio := 0, presence_ratio := 2, amplitude_cutoff := 0 }

/-- Sample analyzer with one unit (id 0) whose row is `exRow`. -/
def exAnalyzer : Analyzer := { unit_ids := 0 :: [], metrics := fun _ => exRow }

/-- Sample recording name "rec". -/
def exName : List Char := 'r' :: 'e' :: 'c' :: []

/-- Sample recording name "rec2". -/
def exName2 : List Char := 'r' :: 'e' :: 'c' :: '2' :: []

/-- Sample batch: the first recording's analyzer fails to load, the
second one loads. -/
def exRecs : List (List Char × Option Analyzer) :=
  (exName, none) :: (exName2, some exAnalyzer) :: []

/-! ### The claims -/

/-- C1: For every recording whose analyzer loads successfully, the QC mask
flags a unit as true iff that unit's row in the quality-metrics table
satisfies every active clause of the mode-specific filter:
isi_violations_ratio < threshold AND presence_ratio > threshold AND
amplitude_cutoff < threshold, with the presence-ratio clause omitted in
test mode. -/
theorem qc_mask_iff_active_clauses (m : Mode) (p : CurationParams)
    (pm : Bool) (name : List Char) (a : Analyzer) (i : Nat)
    (h1 : i < a.unit_ids.length)
    (h2 : i < (process_recording pm (curation_query_for_mode m p) name
      (some a)).qc_mask.length) :
    (process_recording pm (curation_query_for_mode m p) name
        (some a)).qc_mask.get ⟨i, h2⟩ = true ↔
      (a.metrics (a.unit_ids.get ⟨i, h1⟩)).isi_violations_ratio <
          p.isi_violations_ratio_threshold ∧
        (m = Mode.testMode ∨
          (a.metrics (a.unit_ids.get ⟨i, h1⟩)).presence_ratio >
            p.presence_ratio_threshold) ∧
        (a.metrics (a.unit_ids.get ⟨i, h1⟩)).amplitude_cutoff <
          p.amplitude_cutoff_threshold := by
  show (default_qc a (curation_query_for_mode m p)).get ⟨i, h2⟩ = true ↔ _
  rw [default_qc_get a (curation_query_for_mode m p) i h1 h2]
  cases m <;>
    simp [curation_query_for_mode, curation_query, curation_query_test,
      and_assoc]

/-- C1 witness: the sample unit passes every clause in pipeline mode. -/
theorem qc_mask_iff_active_clauses_witness :
    (process_recording true (curation_query_for_mode Mode.pipeline exParams)
        exName (some exAnalyzer)).qc_mask.get ⟨0, by decide⟩ = true ↔
      (exAnalyzer.metrics (exAnalyzer.unit_ids.get ⟨0, by decide⟩)).isi_violations_ratio <
          exParams.isi_violations_ratio_threshold ∧
        (Mode.pipeline = Mode.testMode ∨
          (exAnalyzer.metrics (exAnalyzer.unit_ids.get ⟨0, by decide⟩)).presence_ratio >
            exParams.presence_ratio_threshold) ∧
        (exAnalyzer.metrics (exAnalyzer.unit_ids.get ⟨0, by decide⟩)).amplitude_cutoff <
          exParams.amplitude_cutoff_threshold :=
  qc_mask_iff_active_clauses Mode.pipeline exParams true exName exAnalyzer 0
    (by decide) (by decide)

/-- C2: For every recording with a loadable analyzer, the persisted QC mask
has exactly one entry per unit reported by that analyzer (including length
zero for zero units); for a recording whose analyzer fails to load, the
persisted mask is the empty boolean array. -/
theorem qc_mask_length_matches_units (pm : Bool) (q : QMRow → Bool)
    (name : List Char) :
    (∀ a : Analyzer,
        (process_recording pm q name (some a)).qc_mask.length =
          a.unit_ids.length) ∧
      (process_recording pm q name none).qc_mask = [] := by
  refine ⟨fun a => ?_, rfl⟩
  show (default_qc a q).length = _
  exact default_qc_length a q

/-- C10: For every recording for which a provenance record is emitted,
passing_qc + failing_qc = total_units, where total_units is the analyzer's
unit count and passing_qc is the number of true entries in the mask. -/
theorem provenance_counts_consistent (pm : Bool) (q : QMRow → Bool)
    (name : List Char) (load : Option Analyzer) (o : CurationOutputs)
    (h : (process_recording pm q name load).provenance = some o) :
    o.passing_qc + o.failing_qc = o.total_units ∧
      (∀ a, load = some a → o.total_units = a.unit_ids.length) ∧
      o.passing_qc = (process_recording pm q name load).qc_mask.count true := by
  cases load with
  | none =>
    exfalso
    simp [process_recording] at h
  | some a =>
    cases pm with
    | false =>
      exfalso
      simp [process_recording] at h
    | true =>
      have hcount : (default_qc a q).count true ≤ (default_qc a q).length :=
        List.count_le_length _ _
      have hlen := default_qc_length a q
      simp only [process_recording, if_true, Option.some.injEq] at h
      subst h
      refine ⟨?_, ?_, rfl⟩
      · show (default_qc a q).count true +
            (a.unit_ids.length - (default_qc a q).count true) =
            a.unit_ids.length
        omega
      · intro a' ha'
        cases ha'
        rfl

/-- C10 witness: the sample recording's provenance counts add up. -/
theorem provenance_counts_consistent_witness :
    CurationOutputs.passing_qc ⟨1, 1, 0⟩ + CurationOutputs.failing_qc ⟨1, 1, 0⟩ =
      CurationOutputs.total_units ⟨1, 1, 0⟩ :=
  (provenance_counts_consistent true (curation_query exParams) exName
    (some exAnalyzer) ⟨1, 1, 0⟩ (by decide)).1

/-- C3: A failure of the analyzer-load step causes only that recording to
be skipped: an empty boolean mask is written for it, and every recording
of the batch is still processed from its own entry — the batch never
aborts and always yields one outcome per discovered recording. -/
theorem analyzer_failure_skips_only_that_recording (pm : Bool)
    (q : QMRow → Bool) (recs : List (List Char × Option Analyzer)) (i : Nat)
    (h : i < recs.length) (h2 : i < (run_batch pm q recs).length)
    (hfail : (recs.get ⟨i, h⟩).2 = none) :
    (run_batch pm q recs).length = recs.length ∧
      (run_batch pm q recs).get ⟨i, h2⟩ =
        { rec_name := (recs.get ⟨i, h⟩).1, qc_mask := [], provenance := none } ∧
      ∀ j (hj : j < recs.length) (hj2 : j < (run_batch pm q recs).length),
        (run_batch pm q recs).get ⟨j, hj2⟩ =
          process_recording pm q (recs.get ⟨j, hj⟩).1 (recs.get ⟨j, hj⟩).2 := by
  refine ⟨by simp [run_batch], ?_, ?_⟩
  · simp only [List.get_eq_getElem] at hfail
    simp only [run_batch, List.get_eq_getElem, List.getElem_map, hfail]
    rfl
  · intro j hj hj2
    simp only [run_batch, List.get_eq_getElem, List.getElem_map]

/-- C3 witness: in the sample batch the first analyzer fails to load, an
empty mask is recorded for it, and the second recording is still
processed. -/
theorem analyzer_failure_skips_only_that_recording_witness :
    (run_batch true (curation_query exParams) exRecs).get ⟨0, by decide⟩ =
      { rec_name := exName, qc_mask := [], provenance := none } :=
  (analyzer_failure_skips_only_that_recording true (curation_query exParams)
    exRecs 0 (by decide) (by decide) rfl).2.1

/-- C4 counterexample: the claim says no provenance document is written in
test mode, but the test-mode branch never clears the `pipeline_mode` flag
(only the single-asset branch does), so for a successfully loaded
recording in test mode a provenance document IS written. -/
theorem test_mode_writes_provenance :
    (process_recording (pipeline_mode Mode.testMode)
        (curation_query_for_mode Mode.testMode exParams) exName
        (some exAnalyzer)).provenance.isSome = true := by decide

/-- C4 amended: a provenance record is written per recording exactly when
the pipeline_mode flag is set, which holds both in pipeline mode and in
test mode; in single-asset mode no provenance document is written for any
recording. -/
theorem provenance_only_with_pipeline_flag (m : Mode) (q : QMRow → Bool)
    (name : List Char) (load : Option Analyzer) :
    ((process_recording (pipeline_mode m) q name load).provenance.isSome =
          true →
        m = Mode.pipeline ∨ m = Mode.testMode) ∧
      (m = Mode.singleAsset →
        (process_recording (pipeline_mode m) q name load).provenance = none) ∧
      ∀ a, load = some a → m ≠ Mode.singleAsset →
        (process_recording (pipeline_mode m) q name load).provenance.isSome =
          true := by
  cases load <;> cases m <;> simp [process_recording, pipeline_mode]

/-- C4 witness: in single-asset mode the sample recording gets no
provenance document. -/
theorem provenance_only_with_pipeline_flag_witness :
    (process_recording (pipeline_mode Mode.singleAsset)
        (curation_query exParams) exName (some exAnalyzer)).provenance =
      none :=
  (provenance_only_with_pipeline_flag Mode.singleAsset
    (curation_query exParams) exName (some exAnalyzer)).2.1 rfl

/-- C5 counterexample: under the code's filter (line 91, where Python's
`and` binds tighter than `or`, so `is_dir` guards only the `"ecephys"`
disjunct), a plain FILE whose name contains "behavior" and "sorted"
qualifies as an attached sorted asset, while the claim's condition — a
subdirectory — rejects it. -/
theorem sorted_asset_file_qualifies :
    sortedAssetFilter { name := behaviorSortedFileName, isDir := false } =
        true ∧
      sortedAssetFilterSpec { name := behaviorSortedFileName, isDir := false } =
        false := by decide

/-- C5 amended: an entry qualifies as an attached sorted asset iff it is a
subdirectory whose name contains "ecephys", or it is any entry (directory
or file) whose name contains both "behavior" and "sorted"; the run fails
with the assertion "Attach one sorted asset at a time" when more than one
qualifying entry exists, and proceeds in single-asset mode when exactly
one exists. -/
theorem single_asset_mode_resolution (entries : List Entry) (tde : Bool)
    (e : Entry) :
    (sortedAssetFilter e = true ↔
        (e.isDir = true ∧ containsStr e.name ecephysStr = true) ∨
          (containsStr e.name behaviorStr = true ∧
            containsStr e.name sortedStr = true)) ∧
      ((ecephys_sorted_folders entries).length > 1 →
        resolve_mode entries tde = .error assertionMsg) ∧
      ((ecephys_sorted_folders entries).length = 1 →
        resolve_mode entries tde = .ok Mode.singleAsset) := by
  refine ⟨?_, ?_, ?_⟩
  · simp [sortedAssetFilter]
  · intro hgt
    rw [resolve_mode, if_pos (by omega), if_neg (by omega)]
  · intro heq
    rw [resolve_mode, if_pos (by omega), if_pos heq]

/-- C5 witness: a single qualifying directory puts the run in single-asset
mode. -/
theorem single_asset_mode_resolution_witness :
    resolve_mode ({ name := ecephysSortedName, isDir := true } :: []) false =
      .ok Mode.singleAsset :=
  (single_asset_mode_resolution
    ({ name := ecephysSortedName, isDir := true } :: []) false
    { name := ecephysSortedName, isDir := true }).2.2 (by decide)

/-- C6: the claim says a supplied `--n-jobs` value is used when the
positional argument is absent, but `N_JOBS = args.static_n_jobs or
args.n_jobs` (line 61) evaluates the positional's argparse default `"-1"`,
a truthy string, so the named `--n-jobs` value "4" is ignored and the
effective job-count string stays "-1". -/
theorem n_jobs_named_argument_ignored :
    resolve_n_jobs dashOneStr fourStr none = (NumKind.intKind, dashOneStr) ∧
      ¬dashOneStr = fourStr := by decide

/-- C7 counterexample: (i) the pipeline-mode discovery filter (line 149)
has no `is_dir` check, so a plain file named "postprocessed_rec1" is
treated as a recording; (ii) for the derived name "rec.zarr.zarr" the code
(line 163) truncates at the FIRST occurrence of ".zarr", yielding "rec",
whereas stripping the trailing ".zarr" suffix would yield "rec.zarr". -/
theorem zarr_truncation_counterexample :
    postprocessed_folders true
        ({ name := ppFileRecName, isDir := false } :: []) =
        { name := ppFileRecName, isDir := false } :: [] ∧
      strip_zarr recZarrZarrName = exName ∧
      ¬exName = recDotZarrName := by decide

/-- C7 amended: in pipeline mode exactly the entries (directories or
files) whose name contains "postprocessed_" are treated as recordings, and
the recording name drops the token before the first underscore; in every
mode, a name ending in ".zarr" is truncated at the first occurrence of
".zarr" in the name, and a name without a trailing ".zarr" is left
unchanged. -/
theorem recording_name_derivation (entries : List Entry) (e : Entry)
    (name pre rest : List Char) :
    (e ∈ postprocessed_folders true entries ↔
        e ∈ entries ∧ containsStr e.name postprocessedUnderscoreStr = true) ∧
      ('_' ∉ pre → drop_first_token (pre ++ '_' :: rest) = rest) ∧
      (endsWithStr name zarrStr = false → strip_zarr name = name) ∧
      (endsWithStr name zarrStr = true →
        ∃ i, strFind zarrStr name = some i ∧ strip_zarr name = name.take i ∧
          startsWithStr (name.drop i) zarrStr = true ∧
          ∀ j, j < i → startsWithStr (name.drop j) zarrStr = false) := by
  refine ⟨?_, drop_first_token_of_split pre rest, ?_, ?_⟩
  · simp [postprocessed_folders, List.mem_filter]
  · intro hend
    simp [strip_zarr, hend]
  · intro hend
    obtain ⟨t, rfl⟩ := (endsWithStr_iff name zarrStr).mp hend
    have hocc : startsWithStr ((t ++ zarrStr).drop t.length) zarrStr = true := by
      rw [List.drop_left, startsWithStr_iff]
      exact ⟨[], by simp⟩
    have hsome := strFind_isSome_of_occurrence zarrStr (t ++ zarrStr)
      t.length hocc
    obtain ⟨i, hi⟩ := Option.isSome_iff_exists.mp hsome
    obtain ⟨hfst, hmin⟩ := strFind_first_occurrence zarrStr (t ++ zarrStr) i hi
    exact ⟨i, hi, by simp [strip_zarr, hend, hi], hfst, hmin⟩

/-- C7 witness: the folder name "postprocessed_rec" drops its prefix token
before the first underscore, yielding "rec". -/
theorem recording_name_derivation_witness :
    drop_first_token (ppTokenStr ++ '_' :: exName) = exName :=
  (recording_name_derivation [] { name := [], isDir := false } []
    ppTokenStr exName).2.1 (by decide)

/-- C8 counterexample: with the environment override CO_CPUS = "0.5", line
68 applies `int(N_JOBS_CO)` unconditionally — the fractional
interpretation of line 62 never applies to the environment source (at
runtime `int("0.5")` raises ValueError instead of yielding a fraction). -/
theorem co_cpus_never_fraction :
    resolve_n_jobs dashOneStr dashOneStr (some zeroDotFiveStr) =
        (NumKind.intKind, zeroDotFiveStr) ∧
      ¬NumKind.intKind = NumKind.floatKind := by decide

/-- C8 amended: a command-line job-count value is interpreted as a
fraction of available cores iff the effective string begins with "0.",
and as an integer otherwise; the environment override CO_CPUS is always
interpreted with the integer conversion, never as a fraction. -/
theorem n_jobs_fraction_rule (s nj c : List Char) :
    ((resolve_n_jobs s nj none).1 = NumKind.floatKind ↔
        startsWithStr (resolve_n_jobs s nj none).2 zeroDotStr = true) ∧
      (resolve_n_jobs s nj (some c)).1 = NumKind.intKind ∧
      (resolve_n_jobs s nj (some c)).2 = c := by
  refine ⟨?_, rfl, rfl⟩
  cases hs : startsWithStr ((pyOr (some s) (some nj)).getD s) zeroDotStr with
  | false => simp [resolve_n_jobs, n_jobs_kind, hs]
  | true => simp [resolve_n_jobs, n_jobs_kind, hs]

/-- C8 witness: a positional job-count "0.5" is interpreted as a
fraction. -/
theorem n_jobs_fraction_rule_witness :
    (resolve_n_jobs zeroDotFiveStr dashOneStr none).1 = NumKind.floatKind :=
  (n_jobs_fraction_rule zeroDotFiveStr dashOneStr dashOneStr).1.mpr
    (by decide)

/-- C9: Under argparse's mutual exclusivity (at most one of the positional
params file, `--params-file` and `--params-str` is supplied, and a
supplied positional path is a nonempty string), the parameters document is
resolved to whichever source was supplied — explicit file path, positional
file path, or inline JSON string — and to the default "params.json" when
none was; values from two mutually exclusive sources are never both
honored. -/
theorem params_source_resolution (spf pf ps : Option (List Char))
    (hmutex : (pf = none ∧ ps = none) ∨ (spf = none ∧ ps = none) ∨
      (spf = none ∧ pf = none))
    (hne : ∀ v, spf = some v → ¬v = []) :
    (∀ p, spf = some p → resolve_params spf pf ps = .fromFile p) ∧
      (∀ p, pf = some p → resolve_params spf pf ps = .fromFile p) ∧
      (∀ t, ps = some t → resolve_params spf pf ps = .fromStr t) ∧
      (spf = none → pf = none → ps = none →
        resolve_params spf pf ps = .defaultFile) := by
  refine ⟨?_, ?_, ?_, ?_⟩
  · rintro p rfl
    rcases hmutex with ⟨hpf, hps⟩ | ⟨hspf, _⟩ | ⟨hspf, _⟩
    · subst hpf
      subst hps
      cases p with
      | nil => exact absurd rfl (hne [] rfl)
      | cons c cs => rfl
    · exact Option.noConfusion hspf
    · exact Option.noConfusion hspf
  · rintro p rfl
    rcases hmutex with ⟨hpf, hps⟩ | ⟨hspf, hps⟩ | ⟨hspf, hpf⟩
    · exact Option.noConfusion hpf
    · subst hspf
      subst hps
      rfl
    · exact Option.noConfusion hpf
  · rintro t rfl
    rcases hmutex with ⟨hpf, hps⟩ | ⟨hspf, hps⟩ | ⟨hspf, hpf⟩
    · exact Option.noConfusion hps
    · exact Option.noConfusion hps
    · subst hspf
      subst hpf
      rfl
  · rintro rfl rfl rfl
    rfl

/-- C9 witness: a supplied `--params-file` path is the source used. -/
theorem params_source_resolution_witness :
    resolve_params none (some exName) none = ParamsSource.fromFile exName :=
  (params_source_resolution none (some exName) none
    (Or.inr (Or.inl ⟨rfl, rfl⟩)) (fun _ hv => Option.noConfusion hv)).2.1
    exName rfl

end RunCapsule
